import Mathlib

/-!
# localterra-roadmap: swap store module and asset-pair helpers

A shallow embedding of `src/helpers/asset_pairs.js` and of the actions of
`src/store/modules/transactions.js` that price, clamp, submit and monitor a swap,
together with the properties of them that are proved here.

JavaScript numbers are IEEE-754 doubles.  The amounts handled here are
non-negative, so a finite double is represented exactly as a dyadic fraction
`num / 2 ^ scale`, and every arithmetic operation rounds its exact result to 53
significant bits, ties to even (`roundTo53`).  Overflow to `Infinity` and
subnormal results cannot arise for the magnitudes concerned and are not modelled.
-/

namespace Localterra

/-! ## JavaScript numbers -/

/-- Number of binary digits of `n`; the first argument bounds the recursion
(`bitLength n n` is the bit length of `n`). -/
def bitLength : Nat → Nat → Nat
  | 0, _ => 0
  | fuel + 1, n => if n = 0 then 0 else bitLength fuel (n / 2) + 1

/-- Round the natural number `p` to the nearest natural number that has at most 53
significant bits, ties to the even significand: the rounding step of every
double-precision operation, applied to a scaled exact result. -/
def roundTo53 (p : Nat) : Nat :=
  let s := bitLength p p - 53
  let q := p / 2 ^ s
  let r := p % 2 ^ s
  if 2 ^ s < 2 * r ∨ (2 * r = 2 ^ s ∧ q % 2 = 1) then (q + 1) * 2 ^ s else q * 2 ^ s

/-- A finite non-negative double, `num / 2 ^ scale`. -/
structure Dyadic where
  num : Nat
  scale : Nat
deriving DecidableEq, Repr

/-- An integer-valued double (exact for `n < 2 ^ 53`). -/
def Dyadic.ofNat (n : Nat) : Dyadic := ⟨n, 0⟩

/-- The numeric literal `1.1`: the double `0x1.199999999999ap+0`. -/
def lit_1_1 : Dyadic := ⟨4953959590107546, 52⟩

/-- Product `a * b` of two doubles. -/
def jsMul (a b : Dyadic) : Dyadic := ⟨roundTo53 (a.num * b.num), a.scale + b.scale⟩

/-- Quotient `a / b` of two doubles; `none` stands for the non-finite results of a
zero divisor (`Infinity`, `NaN`).  The exact quotient is computed to more than 55
bits, with a sticky last bit recording a non-zero remainder, and then rounded. -/
def jsDiv (a b : Dyadic) : Option Dyadic :=
  if b.num = 0 then none
  else
    let n := a.num * 2 ^ b.scale
    let d := b.num * 2 ^ a.scale
    let k := 55 + bitLength d d
    let q := n * 2 ^ k / d
    let sticky := if n * 2 ^ k % d = 0 then q else q ||| 1
    some ⟨roundTo53 sticky, k⟩

/-- The function `Math.ceil` on a non-negative double. -/
def mathCeil (a : Dyadic) : Nat := (a.num + 2 ^ a.scale - 1) / 2 ^ a.scale

/-- The function `Math.floor` on a non-negative double. -/
def mathFloor (a : Dyadic) : Nat := a.num / 2 ^ a.scale

/-- Sum `a + b` of two non-negative integer-valued doubles. -/
def jsAdd (a b : Nat) : Nat := roundTo53 (a + b)

/-- Difference `a - b` of two non-negative integer-valued doubles. -/
def jsSub (a b : Nat) : Int :=
  if b ≤ a then (roundTo53 (a - b) : Int) else -(roundTo53 (b - a) : Int)

/-- Conversion `ToNumber` of a value that is a number or `null`: `null` becomes `+0`. -/
def nullToNumber : Option Nat → Nat
  | none => 0
  | some n => n

/-! ## JavaScript strings -/

/-- The method `String.prototype.toLowerCase`, on the ASCII range (asset symbols
are ASCII tickers). -/
def toLowerCase (s : String) : String := ⟨s.data.map Char.toLower⟩

/-- The call `s.slice(0, stop)`: a negative `stop` counts from the end of the
string, and the resulting index is clamped to `[0, s.length]`. -/
def sliceFromStart (s : String) (stop : Int) : String :=
  let len : Int := s.data.length
  let final : Int := if stop < 0 then max (len + stop) 0 else min stop len
  ⟨s.data.take final.toNat⟩

/-- Value of a decimal digit. -/
def digitValue (c : Char) : Option Nat :=
  if 48 ≤ c.toNat ∧ c.toNat ≤ 57 then some (c.toNat - 48) else none

/-- Conversion `ToNumber` of a string of decimal digits (the empty string is `0`),
correctly rounded to a double.  Any other string is outside the model and is
reported as `none`, like `NaN`. -/
def stringToNumber (s : String) : Option Dyadic :=
  (s.data.foldlM (fun acc c => (digitValue c).map (fun d => 10 * acc + d)) 0).map
    (fun n => ⟨roundTo53 n, 0⟩)

/-! ## helpers/asset_pairs.js -/

/-- Payload of the `token` tag. -/
structure ContractToken where
  contract_addr : String
deriving DecidableEq, Repr

/-- Payload of the `native_token` tag. -/
structure NativeToken where
  denom : String
deriving DecidableEq, Repr

/-- An element of `asset_infos` (or of `pool.assets`): an object whose properties
`token`, `native_token` and `amount` may each be present or absent. -/
structure Asset where
  token : Option ContractToken
  native_token : Option NativeToken
  amount : Option String
deriving DecidableEq, Repr

/-- Errors raised while an action runs. -/
inductive JsError where
  | typeError
  | thrown (value : String)
deriving DecidableEq, Repr

/-- The function `saleAssetFromPair`.  Reading a property of `asset_pair[0]` raises
a `TypeError` when the array is empty; `asset_pair[1]` may be `undefined` (`none`). -/
def saleAssetFromPair (asset_pair : List Asset) : Except JsError (Option Asset) :=
  match asset_pair[0]? with
  | none => .error .typeError
  | some first => if first.token.isSome then .ok (some first) else .ok asset_pair[1]?

/-- The function `nativeTokenFromPair`. -/
def nativeTokenFromPair (asset_pair : List Asset) : Except JsError (Option Asset) :=
  match asset_pair[0]? with
  | none => .error .typeError
  | some first => if first.native_token.isSome then .ok (some first) else .ok asset_pair[1]?

/-! ## store/modules/transactions.js: state -/

/-- The pair object held in `state.currentPair`. -/
structure Pair where
  asset_infos : List Asset
  contract_addr : Option String
deriving DecidableEq, Repr

/-- The object committed with `setPageLoading`. -/
structure PageLoading where
  isLoading : Bool
  label : Option String
  transaction : Option String
deriving DecidableEq, Repr

/-- The feedback objects built by `baseFeedback()`, `errorFeedback(..)` and
`successFeedback(..)` of the feedback component. -/
inductive Feedback where
  | base
  | error
  | success
deriving DecidableEq, Repr

/-- The part of the store that `swapTokens` reads and writes.  `nativeTokenSymbol`
is the value of `getters.nativeTokenSymbol` (an entry of the table
`NATIVE_TOKEN_SYMBOLS`), `balance` the value of
`fromFormattedString(getters.balance).mul(10 ** 6).toNumber()`, the native balance
in base units, `maxSwapFee` the value of `state.maxSwapFee` (initially `null`) and
`saleTokenSymbol` the value of `state.saleTokenInfo.symbol` (`undefined` until the
token info is fetched). -/
structure Store where
  pageLoading : PageLoading
  pageFeedback : Feedback
  currentPair : Option Pair
  walletAddress : String
  nativeTokenSymbol : String
  balance : Nat
  maxSwapFee : Option Nat
  saleTokenSymbol : Option String
deriving DecidableEq, Repr

/-- The argument of `swapTokens`. -/
structure SwapInfo where
  fromSymbol : String
  fromAmount : Nat
deriving DecidableEq, Repr

/-- The object `buildSwapOptions`. -/
structure SwapOptions where
  pair : Option Pair
  walletAddress : String
  intAmount : Int
deriving DecidableEq, Repr

/-- A swap message, recorded as the builder that was called and its argument. -/
inductive Msg where
  | swapFromNativeToken (options : SwapOptions)
  | swapFromContractToken (options : SwapOptions)
deriving DecidableEq, Repr

/-- Calls that leave the store module, in the order they are made. -/
inductive Call where
  | postMsg (msg : Msg)
  | txInfo (txhash : String)
  | clearInterval
  | dispatch (action : String)
deriving DecidableEq, Repr

/-- Result of running an action: the store it leaves, the calls it made, and the
value it threw, if any. -/
structure Outcome where
  store : Store
  calls : List Call
  thrown : Option JsError
deriving DecidableEq, Repr

/-! ## store/modules/transactions.js: swapTokens -/

/-- The value assigned to `buildSwapOptions.intAmount` on the native-origin branch
(lines 377-385): `fromAmount`, replaced by `balance - Math.ceil(maxSwapFee * 1.1)`
when `fromAmount + maxSwapFee > balance`. -/
def nativeIntAmount (balance : Nat) (maxSwapFee : Option Nat) (fromAmount : Nat) : Int :=
  if balance < jsAdd fromAmount (nullToNumber maxSwapFee) then
    jsSub balance (mathCeil (jsMul (Dyadic.ofNat (nullToNumber maxSwapFee)) lit_1_1))
  else
    (fromAmount : Int)

/-- The same lines for a fee estimate that is any finite non-negative double (the
estimate is the product `fee.gas_limit * gasPrices.uusd`, which need not be an
integer): the sum `fromAmount + maxSwapFee` is rounded at the scale of the fee. -/
def nativeIntAmountOfDouble (balance : Nat) (maxSwapFee : Dyadic) (fromAmount : Nat) : Int :=
  if balance * 2 ^ maxSwapFee.scale
      < roundTo53 (fromAmount * 2 ^ maxSwapFee.scale + maxSwapFee.num) then
    jsSub balance (mathCeil (jsMul maxSwapFee lit_1_1))
  else
    (fromAmount : Int)

/-- The action `swapTokens`, up to and including the call of `postMsg`. -/
def swapTokens (st : Store) (swapInfo : SwapInfo) : Outcome :=
  let waiting : PageLoading :=
    { isLoading := true, label := some "Waiting for Terra Station", transaction := none }
  if toLowerCase swapInfo.fromSymbol = toLowerCase st.nativeTokenSymbol then
    let options : SwapOptions :=
      { pair := st.currentPair
        walletAddress := st.walletAddress
        intAmount := nativeIntAmount st.balance st.maxSwapFee swapInfo.fromAmount }
    { store := { st with pageLoading := waiting }
      calls := [Call.postMsg (Msg.swapFromNativeToken options)]
      thrown := none }
  else
    match st.saleTokenSymbol with
    | none => { store := st, calls := [], thrown := some JsError.typeError }
    | some symbol =>
      if toLowerCase swapInfo.fromSymbol = toLowerCase symbol then
        let options : SwapOptions :=
          { pair := st.currentPair
            walletAddress := st.walletAddress
            intAmount := (swapInfo.fromAmount : Int) }
        { store := { st with pageLoading := waiting }
          calls := [Call.postMsg (Msg.swapFromContractToken options)]
          thrown := none }
      else
        { store := st, calls := [], thrown := some (JsError.thrown "Swapping from ?") }

/-- The branch `swapTokens` takes. -/
inductive Branch where
  | nativeOrigin
  | tokenOrigin
  | rejected
deriving DecidableEq, Repr

/-- Branch read off the outcome of `swapTokens`. -/
def branchOf (o : Outcome) : Branch :=
  match o.thrown, o.calls with
  | none, [Call.postMsg (Msg.swapFromNativeToken _)] => Branch.nativeOrigin
  | none, [Call.postMsg (Msg.swapFromContractToken _)] => Branch.tokenOrigin
  | _, _ => Branch.rejected

/-- Amount carried by the message posted by `swapTokens`, if one was posted. -/
def postedAmount (o : Outcome) : Option Int :=
  match o.calls with
  | [Call.postMsg (Msg.swapFromNativeToken options)] => some options.intAmount
  | [Call.postMsg (Msg.swapFromContractToken options)] => some options.intAmount
  | _ => none

/-- The failure callback of `postMsg` (lines 419-424): the error feedback is
committed unless the wallet reported `UserDenied`, and loading is switched off. -/
def postMsgFailed (userDenied : Bool) (st : Store) : Store :=
  { st with
    pageFeedback := if userDenied then st.pageFeedback else Feedback.error
    pageLoading := { isLoading := false, label := none, transaction := none } }

/-! ## store/modules/transactions.js: confirmation polling -/

/-- The transaction record returned by `terra.tx.txInfo`. -/
structure TxInfo where
  height : Nat
deriving DecidableEq, Repr

/-- State of the polling started in the `then` callback of `postMsg` (lines 401-417):
the store, the calls made so far, whether the interval timer is still set, and the
number of interval callbacks suspended at their `await`. -/
structure Monitor where
  store : Store
  calls : List Call
  timerSet : Bool
  inFlight : Nat
deriving DecidableEq, Repr

/-- Entering the `then` callback: `setInterval` arms the timer. -/
def startMonitor (st : Store) : Monitor :=
  { store := st, calls := [], timerSet := true, inFlight := 0 }

/-- First half of the interval callback, up to the `await`: commit the loading
state carrying the transaction hash and query `txInfo`; the callback is then
suspended until the query settles. -/
def pollStart (txhash : String) (m : Monitor) : Monitor :=
  { m with
    store := { m.store with
      pageLoading :=
        { isLoading := true, label := some "Transaction hash:", transaction := some txhash } }
    calls := m.calls ++ [Call.txInfo txhash]
    inFlight := m.inFlight + 1 }

/-- Second half of the interval callback, after the `await`: when the result is
truthy, clear the timer, dispatch the two refreshes and commit the final state.
Nothing checks whether the timer was cleared already. -/
def pollResume (result : Option TxInfo) (m : Monitor) : Monitor :=
  match result with
  | none => { m with inFlight := m.inFlight - 1 }
  | some _ =>
    { store := { m.store with
        pageLoading := { isLoading := false, label := none, transaction := none }
        pageFeedback := Feedback.success }
      calls := m.calls ++
        [Call.clearInterval, Call.dispatch "updateBalance", Call.dispatch "fetchCurrentPair"]
      timerSet := false
      inFlight := m.inFlight - 1 }

/-- What can happen while the monitor runs: the interval period elapses, or one of
the awaited `txInfo` queries settles with a result. -/
inductive MonitorEvent where
  | tick
  | settle (result : Option TxInfo)
deriving DecidableEq, Repr

/-- One event.  A tick starts a callback whenever the timer is set, whether or not
earlier callbacks are still suspended; a settled query resumes one suspended
callback (all of them run the same code on the same hash). -/
def monitorStep (txhash : String) (m : Monitor) : MonitorEvent → Monitor
  | MonitorEvent.tick => if m.timerSet then pollStart txhash m else m
  | MonitorEvent.settle result => if m.inFlight = 0 then m else pollResume result m

/-- A run of the monitor over a schedule of events. -/
def runMonitor (txhash : String) (m : Monitor) (events : List MonitorEvent) : Monitor :=
  events.foldl (monitorStep txhash) m

/-- The schedule in which every query settles before the next tick: one tick and
one settlement per result. -/
def inOrder : List (Option TxInfo) → List MonitorEvent
  | [] => []
  | result :: rest => MonitorEvent.tick :: MonitorEvent.settle result :: inOrder rest

/-- Lifecycle status of the submitted swap. -/
inductive SwapStatus where
  | submitted
  | confirmed
deriving DecidableEq, Repr

/-- Status shown by the store: submitted while the page is loading with the
transaction hash, confirmed once loading is off and the success feedback is set. -/
def statusOf (m : Monitor) : SwapStatus :=
  if m.store.pageLoading.isLoading = false ∧ m.store.pageFeedback = Feedback.success then
    SwapStatus.confirmed
  else
    SwapStatus.submitted

/-! ## store/modules/transactions.js: fetchPool -/

/-- The fields of `state.saleTokenInfo` read by `fetchPool`. -/
structure SaleTokenInfo where
  decimals : Nat
  total_supply : String
deriving DecidableEq, Repr

/-- The object committed with `setTokensRemaining`; `percentage` is `none` when the
quotient is not a finite number. -/
structure TokensRemaining where
  amount : String
  percentage : Option Nat
deriving DecidableEq, Repr

/-- Lines 283-289 of `fetchPool`: the tokens-remaining record derived from the
reserve string `coinsRemaining`. -/
def tokensRemaining (coinsRemaining : String) (info : SaleTokenInfo) : TokensRemaining :=
  { amount := sliceFromStart coinsRemaining ((coinsRemaining.data.length : Int) - info.decimals)
    percentage :=
      match stringToNumber coinsRemaining, stringToNumber info.total_supply with
      | some reserve, some supply =>
        (jsDiv reserve supply).map (fun ratio => mathFloor (jsMul ratio (Dyadic.ofNat 100)))
      | _, _ => none }

/-- Lines 282-289 of `fetchPool`: the reserve is the `amount` of the sale asset
looked up in `pool.assets`. -/
def fetchPool (assets : List Asset) (info : SaleTokenInfo) : Except JsError TokensRemaining :=
  match saleAssetFromPair assets with
  | .error e => .error e
  | .ok none => .error .typeError
  | .ok (some asset) =>
    match asset.amount with
    | none => .error .typeError
    | some coinsRemaining => .ok (tokensRemaining coinsRemaining info)

/-! ## store/modules/transactions.js: simulations -/

/-- Modelled from the spec: the reply type of the chain query `getSimulation` of the
queries module, which is not part of the sources here.  The reply carries
`return_amount` and `spread_amount`, amounts in base units, which are
integer-valued and never negative. -/
structure SimulationResponse where
  return_amount : Nat
  spread_amount : Nat
deriving DecidableEq, Repr

/-- Modelled from the spec: the reply type of the chain query `getReverseSimulation`
of the queries module, carrying `offer_amount` and `spread_amount`, amounts in base
units, which are integer-valued and never negative. -/
structure ReverseSimulationResponse where
  offer_amount : Nat
  spread_amount : Nat
deriving DecidableEq, Repr

/-- The value returned by `getSimulation` and `getReverseSimulation`. -/
structure Quote where
  amount : ℚ
  spread : ℚ
deriving DecidableEq, Repr

/-- The library call `Dec.withPrec(value, prec)`: `value` scaled by `10 ^ (-prec)`. -/
def withPrec (value : Int) (prec : Nat) : ℚ := (value : ℚ) / (10 : ℚ) ^ prec

/-- The action `getSimulation`; `query` is the chain query `getSimulation` of the
queries module, called with the pair address, the amount and the asset info. -/
def getSimulation
    (query : Option String → Int → Option Asset → Except JsError SimulationResponse)
    (pair : Pair) (amount : Int) : Except JsError Quote :=
  match nativeTokenFromPair pair.asset_infos with
  | .error e => .error e
  | .ok assetInfo =>
    match query pair.contract_addr amount assetInfo with
    | .error e => .error e
    | .ok simulation =>
      .ok { amount := withPrec (simulation.return_amount : Int) 6
            spread := withPrec (simulation.spread_amount : Int) 6 }

/-- The action `getReverseSimulation`; `query` is the chain query
`getReverseSimulation` of the queries module. -/
def getReverseSimulation
    (query : Option String → Int → Option Asset → Except JsError ReverseSimulationResponse)
    (pair : Pair) (amount : Int) : Except JsError Quote :=
  match saleAssetFromPair pair.asset_infos with
  | .error e => .error e
  | .ok assetInfo =>
    match query pair.contract_addr amount assetInfo with
    | .error e => .error e
    | .ok simulation =>
      .ok { amount := withPrec (simulation.offer_amount : Int) 6
            spread := withPrec (simulation.spread_amount : Int) 6 }

/-! ## Sample data -/

/-- The pair literal committed by `fetchCurrentPair` (it carries no `contract_addr`). -/
def fetchedPair : Pair :=
  { asset_infos :=
      [ { token := some ⟨"terra1vchw83qt25j89zqwdpmdzj722sqxthnckqzxxp"⟩
          native_token := none
          amount := none },
        { token := none, native_token := some ⟨"uusd"⟩, amount := none } ]
    contract_addr := none }

/-- A store of a connected wallet on the fetched pair, with the given native
balance and fee estimate. -/
def sampleStore (balance : Nat) (maxSwapFee : Option Nat) : Store :=
  { pageLoading := { isLoading := false, label := none, transaction := none }
    pageFeedback := Feedback.base
    currentPair := some fetchedPair
    walletAddress := "terra1wallet"
    nativeTokenSymbol := "UST"
    balance := balance
    maxSwapFee := maxSwapFee
    saleTokenSymbol := some "LOCAL" }

/-- The swap options `swapTokens` builds on the sample store for a given amount. -/
def sampleOptions (intAmount : Int) : SwapOptions :=
  { pair := some fetchedPair, walletAddress := "terra1wallet", intAmount := intAmount }

/-- A pool whose sale-asset reserve is the given digit string. -/
def samplePoolAssets (reserve : String) : List Asset :=
  [ { token := some ⟨"terra1vchw83qt25j89zqwdpmdzj722sqxthnckqzxxp"⟩
      native_token := none
      amount := some reserve },
    { token := none, native_token := some ⟨"uusd"⟩, amount := some "750000000000" } ]

/-- A chain that answers every simulation query with the same reply. -/
def constantSimulation (reply : SimulationResponse) :
    Option String → Int → Option Asset → Except JsError SimulationResponse :=
  fun _ _ _ => .ok reply

/-- A chain that answers every reverse-simulation query with the same reply. -/
def constantReverseSimulation (reply : ReverseSimulationResponse) :
    Option String → Int → Option Asset → Except JsError ReverseSimulationResponse :=
  fun _ _ _ => .ok reply

/-! ## Rounding lemmas -/

/-- A number below `2 ^ k` has at most `k` binary digits. -/
theorem bitLength_le (fuel : Nat) : ∀ (k n : Nat), n < 2 ^ k → bitLength fuel n ≤ k := by
  induction fuel with
  | zero => intro k n _; simp [bitLength]
  | succ fuel ih =>
    intro k n h
    unfold bitLength
    split
    · exact Nat.zero_le _
    · rename_i hn
      cases k with
      | zero => simp at h; exact absurd h hn
      | succ k =>
        have h2 : n / 2 < 2 ^ k := by
          rw [Nat.div_lt_iff_lt_mul (by decide)]
          rw [Nat.pow_succ] at h
          exact h
        have := ih k (n / 2) h2
        omega

/-- Numbers below `2 ^ 53` are representable: rounding leaves them unchanged. -/
theorem roundTo53_exact (n : Nat) (h : n < 2 ^ 53) : roundTo53 n = n := by
  have hb : bitLength n n - 53 = 0 := by
    have := bitLength_le n 53 n h
    omega
  simp [roundTo53, hb, Nat.mod_one]

/-- Rounding a number below `2 ^ (53 + k)` moves it by less than `2 ^ k`. -/
theorem roundTo53_bounds (p k : Nat) (h : p < 2 ^ (53 + k)) :
    p < roundTo53 p + 2 ^ k ∧ roundTo53 p ≤ p + 2 ^ k := by
  have hs : bitLength p p - 53 ≤ k := by
    have := bitLength_le p (53 + k) p h
    omega
  have hpow : 2 ^ (bitLength p p - 53) ≤ 2 ^ k := Nat.pow_le_pow_right (by decide) hs
  have hpos : 0 < 2 ^ (bitLength p p - 53) := Nat.two_pow_pos _
  have hdm := Nat.div_add_mod p (2 ^ (bitLength p p - 53))
  have hmod := Nat.mod_lt p hpos
  have hmul : 2 ^ (bitLength p p - 53) * (p / 2 ^ (bitLength p p - 53))
      = p / 2 ^ (bitLength p p - 53) * 2 ^ (bitLength p p - 53) := Nat.mul_comm _ _
  unfold roundTo53
  simp only []
  split
  · rw [Nat.add_mul, Nat.one_mul]
    omega
  · omega

/-- The margin `Math.ceil(fee * 1.1)` is at least the fee and stays a safe integer. -/
theorem ceilMargin_bounds (fee : Nat) (h : fee < 2 ^ 52) :
    fee ≤ mathCeil (jsMul (Dyadic.ofNat fee) lit_1_1) ∧
      mathCeil (jsMul (Dyadic.ofNat fee) lit_1_1) < 2 ^ 53 := by
  have hp : fee * 4953959590107546 < 2 ^ (53 + 52) := by
    norm_num at h ⊢
    omega
  obtain ⟨h1, h2⟩ := roundTo53_bounds (fee * 4953959590107546) 52 hp
  simp only [mathCeil, jsMul, Dyadic.ofNat, lit_1_1, Nat.zero_add]
  norm_num at h h1 h2 ⊢
  constructor
  · rw [Nat.le_div_iff_mul_le (by decide)]
    omega
  · rw [Nat.div_lt_iff_lt_mul (by decide)]
    omega

/-- For a fee estimate below `2 ^ 48` the margin `Math.ceil(fee * 1.1)` is the exact
`ceil(11 * fee / 10)` or one more, and it is the exact value whenever the fee is not
a multiple of 10. -/
theorem ceilMargin_near (fee : Nat) (h : fee < 2 ^ 48) :
    (11 * fee + 9) / 10 ≤ mathCeil (jsMul (Dyadic.ofNat fee) lit_1_1) ∧
      mathCeil (jsMul (Dyadic.ofNat fee) lit_1_1) ≤ (11 * fee + 9) / 10 + 1 ∧
      (fee % 10 ≠ 0 → mathCeil (jsMul (Dyadic.ofNat fee) lit_1_1) = (11 * fee + 9) / 10) := by
  have hp : fee * 4953959590107546 < 2 ^ (53 + 48) := by
    norm_num at h ⊢
    omega
  obtain ⟨h1, h2⟩ := roundTo53_bounds (fee * 4953959590107546) 48 hp
  simp only [mathCeil, jsMul, Dyadic.ofNat, lit_1_1, Nat.zero_add]
  norm_num at h h1 h2 ⊢
  refine ⟨?_, ?_, ?_⟩
  · rw [Nat.le_div_iff_mul_le (by decide)]
    omega
  · rw [← Nat.lt_succ_iff, Nat.div_lt_iff_lt_mul (by decide)]
    omega
  · intro hne
    have hE : 11 * fee + 1 ≤ 10 * ((11 * fee + 9) / 10) := by
      have hr : fee % 10 < 10 := Nat.mod_lt _ (by decide)
      have hd := Nat.div_add_mod fee 10
      generalize fee % 10 = r at hne hr hd
      generalize fee / 10 = d at hd
      subst hd
      interval_cases r <;> omega
    apply Nat.le_antisymm
    · rw [← Nat.lt_succ_iff, Nat.div_lt_iff_lt_mul (by decide)]
      omega
    · rw [Nat.le_div_iff_mul_le (by decide)]
      omega

/-- Rounding a number in `[2 ^ 53, 2 ^ 54)` does not take it below `2 ^ 53`. -/
theorem roundTo53_ge_two_pow (x : Nat) (h1 : 2 ^ 53 ≤ x) (h2 : x < 2 ^ 54) :
    2 ^ 53 ≤ roundTo53 x := by
  have hs : bitLength x x - 53 ≤ 1 := by
    have := bitLength_le x 54 x h2
    omega
  unfold roundTo53
  simp only []
  rcases Nat.le_one_iff_eq_zero_or_eq_one.mp hs with h0 | h0
  · rw [h0]
    norm_num [Nat.mod_one] at h1 h2 ⊢
    exact h1
  · rw [h0]
    norm_num at h1 h2 ⊢
    split <;> omega

/-- For a fee estimate below `2 ^ 53` the margin `Math.ceil(fee * 1.1)` is at least
the fee and below `2 ^ 54`. -/
theorem ceilMargin_bounds_safe (fee : Nat) (h : fee < 2 ^ 53) :
    fee ≤ mathCeil (jsMul (Dyadic.ofNat fee) lit_1_1) ∧
      mathCeil (jsMul (Dyadic.ofNat fee) lit_1_1) < 2 ^ 54 := by
  by_cases hsmall : fee < 2 ^ 52
  · obtain ⟨h1, h2⟩ := ceilMargin_bounds fee hsmall
    refine ⟨h1, lt_trans h2 (by norm_num)⟩
  · have hp : fee * 4953959590107546 < 2 ^ (53 + 53) := by
      norm_num at h ⊢
      omega
    obtain ⟨h1, h2⟩ := roundTo53_bounds (fee * 4953959590107546) 53 hp
    simp only [mathCeil, jsMul, Dyadic.ofNat, lit_1_1, Nat.zero_add]
    norm_num at h hsmall h1 h2 ⊢
    constructor
    · rw [Nat.le_div_iff_mul_le (by decide)]
      omega
    · rw [Nat.div_lt_iff_lt_mul (by decide)]
      omega

/-- The native-origin amount is at most the request and at most balance minus fee,
for integer amounts below `2 ^ 53`. -/
theorem nativeIntAmount_bounds (balance fee fromAmount : Nat)
    (hb : balance < 2 ^ 53) (hf : fee < 2 ^ 53) (ha : fromAmount < 2 ^ 53) :
    nativeIntAmount balance (some fee) fromAmount ≤ min (fromAmount : Int) ((balance : Int) - fee) := by
  obtain ⟨hc1, hc2⟩ := ceilMargin_bounds_safe fee hf
  have hsum : (fromAmount + fee < 2 ^ 53 ∧ jsAdd fromAmount fee = fromAmount + fee) ∨
      (2 ^ 53 ≤ fromAmount + fee ∧ 2 ^ 53 ≤ jsAdd fromAmount fee) := by
    by_cases hlt : fromAmount + fee < 2 ^ 53
    · exact Or.inl ⟨hlt, roundTo53_exact _ hlt⟩
    · refine Or.inr ⟨by omega, roundTo53_ge_two_pow _ (by omega) ?_⟩
      norm_num at hf ha ⊢
      omega
  unfold nativeIntAmount
  simp only [nullToNumber]
  generalize jsAdd fromAmount fee = total at hsum
  generalize mathCeil (jsMul (Dyadic.ofNat fee) lit_1_1) = margin at hc1 hc2
  norm_num at hb hf ha hc2 hsum
  split
  · rename_i hlt
    unfold jsSub
    split
    · rename_i hle
      rw [roundTo53_exact _ (by norm_num; omega)]
      omega
    · rename_i hle
      by_cases hx : margin - balance < 2 ^ 53
      · rw [roundTo53_exact _ hx]
        norm_num at hx
        omega
      · have hge := roundTo53_ge_two_pow (margin - balance) (by omega) (by norm_num; omega)
        norm_num at hge
        omega
  · omega

/-- On an integer-valued fee estimate the two renderings of lines 382-385 agree. -/
theorem nativeIntAmountOfDouble_ofNat (balance fee fromAmount : Nat) :
    nativeIntAmountOfDouble balance (Dyadic.ofNat fee) fromAmount
      = nativeIntAmount balance (some fee) fromAmount := by
  simp [nativeIntAmountOfDouble, nativeIntAmount, Dyadic.ofNat, jsAdd, nullToNumber]


/-! ## swapTokens: the native-origin clamp -/

/-- C1: at the documented example (balance 1,000,000, fee estimate 50,000, requested
980,000) the amount `swapTokens` places in the native-origin message is 944,999,
one base unit below `balance - ceil(11 * fee / 10) = 945,000`: the double product
`50000 * 1.1` is `55000.00000000001`, which `Math.ceil` takes to 55,001. -/
theorem swapTokens_clamp_documented_example :
    postedAmount (swapTokens (sampleStore 1000000 (some 50000)) ⟨"UST", 980000⟩)
        = some 944999 ∧
      mathCeil (jsMul (Dyadic.ofNat 50000) lit_1_1) = 55001 ∧
      ((1000000 : Int) - ((11 * 50000 + 9) / 10 : Nat) = 945000) := by
  decide

/-- C2, as stated, fails: with balance 10, fee estimate 50 and requested amount 5 the
clamp is negative, yet `swapTokens` throws nothing and calls `postMsg` with a
native-origin message whose amount is -46. -/
theorem swapTokens_negative_clamp_is_posted :
    (10 : Nat) < 5 + 50 ∧ ((10 : Int) - ((11 * 50 + 9) / 10 : Nat) < 0) ∧
      (swapTokens (sampleStore 10 (some 50)) ⟨"UST", 5⟩).thrown = none ∧
      (swapTokens (sampleStore 10 (some 50)) ⟨"UST", 5⟩).calls
        = [Call.postMsg (Msg.swapFromNativeToken (sampleOptions (-46)))] := by
  decide

/-- C2, amended: on the native-origin branch `swapTokens` has no insufficient-balance
rejection.  For every store and request whose symbol matches the native symbol it
throws nothing, commits the waiting state and calls `postMsg` exactly once, with
the native-origin message built from the computed amount. -/
theorem swapTokens_native_never_rejects (st : Store) (swapInfo : SwapInfo)
    (hsym : toLowerCase swapInfo.fromSymbol = toLowerCase st.nativeTokenSymbol) :
    (swapTokens st swapInfo).thrown = none ∧
      (swapTokens st swapInfo).calls =
        [Call.postMsg (Msg.swapFromNativeToken
          { pair := st.currentPair
            walletAddress := st.walletAddress
            intAmount := nativeIntAmount st.balance st.maxSwapFee swapInfo.fromAmount })] ∧
      (swapTokens st swapInfo).store.pageLoading =
        { isLoading := true, label := some "Waiting for Terra Station", transaction := none } := by
  simp [swapTokens, hsym]

theorem swapTokens_native_never_rejects_witness :
    toLowerCase "ust" = toLowerCase (sampleStore 10 (some 50)).nativeTokenSymbol ∧
      (swapTokens (sampleStore 10 (some 50)) ⟨"ust", 5⟩).thrown = none :=
  ⟨by decide, (swapTokens_native_never_rejects (sampleStore 10 (some 50)) ⟨"ust", 5⟩
    (by decide)).1⟩

set_option maxRecDepth 4000 in
/-- With balance and requested amount both `2 ^ 51` and the fee estimate `0.1`, the
double `7205759403792794 / 2 ^ 56`, the sum rounds back to `2 ^ 51`, the comparison
is false and the request is left unclamped. -/
theorem nativeIntAmountOfDouble_tenth :
    nativeIntAmountOfDouble 2251799813685248 ⟨7205759403792794, 56⟩ 2251799813685248
      = 2251799813685248 := by
  decide

/-- C3, as stated, fails.  With balance and requested amount both `2 ^ 53` and a fee
estimate of 1, the double sum `fromAmount + maxSwapFee` rounds back to `2 ^ 53`, the
comparison is false and the whole balance is posted: more than
`min fromAmount (balance - maxSwapFee)`, and amount plus fee exceeds the balance.
With balance and requested amount both `2 ^ 51` and the fractional fee estimate
`0.1` (the double `0x1.999999999999ap-4`) the sum rounds back to `2 ^ 51` as well and
the whole balance is posted, leaving nothing for the fee. -/
theorem swapTokens_native_amount_rounding :
    postedAmount (swapTokens (sampleStore 9007199254740992 (some 1)) ⟨"UST", 9007199254740992⟩)
        = some 9007199254740992 ∧
      ¬ ((9007199254740992 : Int)
          ≤ min ((9007199254740992 : Nat) : Int) (((9007199254740992 : Nat) : Int) - (1 : Nat))) ∧
      ¬ ((9007199254740992 : Int) + (1 : Nat) ≤ ((9007199254740992 : Nat) : Int)) ∧
      nativeIntAmountOfDouble 2251799813685248 ⟨7205759403792794, 56⟩ 2251799813685248
        = 2251799813685248 :=
  ⟨by decide, by decide, by decide, nativeIntAmountOfDouble_tenth⟩

/-- C3, amended: on the native-origin branch, for an integer balance, fee estimate and
requested amount, each below `2 ^ 53` base units (at most `Number.MAX_SAFE_INTEGER`),
the amount placed in the message is at most `min fromAmount (balance - maxSwapFee)`,
so the clamp only lowers the request and amount plus fee estimate never exceeds the
balance. -/
theorem swapTokens_native_amount_le (st : Store) (swapInfo : SwapInfo) (fee : Nat)
    (hsym : toLowerCase swapInfo.fromSymbol = toLowerCase st.nativeTokenSymbol)
    (hfee : st.maxSwapFee = some fee)
    (hb : st.balance < 2 ^ 53) (hf : fee < 2 ^ 53) (ha : swapInfo.fromAmount < 2 ^ 53) :
    ∃ amount : Int, postedAmount (swapTokens st swapInfo) = some amount ∧
      amount ≤ min (swapInfo.fromAmount : Int) ((st.balance : Int) - fee) ∧
      amount ≤ swapInfo.fromAmount ∧
      amount + fee ≤ st.balance := by
  have hmin := nativeIntAmount_bounds st.balance fee swapInfo.fromAmount hb hf ha
  refine ⟨nativeIntAmount st.balance (some fee) swapInfo.fromAmount, ?_, hmin, ?_, ?_⟩
  · simp [swapTokens, hsym, postedAmount, hfee]
  · exact le_trans hmin (min_le_left _ _)
  · have := le_trans hmin (min_le_right _ _)
    omega

theorem swapTokens_native_amount_le_witness :
    ∃ amount : Int,
      postedAmount (swapTokens (sampleStore 1000000 (some 50000)) ⟨"UST", 980000⟩)
        = some amount ∧
      amount ≤ min (((980000 : Nat) : Int)) ((((sampleStore 1000000 (some 50000)).balance : Nat) : Int) - (50000 : Nat)) ∧
      amount ≤ ((980000 : Nat) : Int) ∧
      amount + (50000 : Nat) ≤ (((sampleStore 1000000 (some 50000)).balance : Nat) : Int) :=
  swapTokens_native_amount_le (sampleStore 1000000 (some 50000)) ⟨"UST", 980000⟩ 50000
    (by decide) rfl (by decide) (by decide) (by decide)

/-- C4: a missing fee estimate is treated as a zero fee.  With `maxSwapFee` still
`null`, a request for the whole balance of 1,000,000 is posted unclamped, a request
for 2,000,000 is clamped to the full balance with no margin, and in general the
computed amount is the one computed for a fee estimate of 0. -/
theorem swapTokens_null_fee_is_zero_fee :
    postedAmount (swapTokens (sampleStore 1000000 none) ⟨"UST", 1000000⟩) = some 1000000 ∧
      postedAmount (swapTokens (sampleStore 1000000 none) ⟨"UST", 2000000⟩) = some 1000000 ∧
      (∀ balance fromAmount : Nat,
        nativeIntAmount balance none fromAmount = nativeIntAmount balance (some 0) fromAmount) := by
  refine ⟨by decide, by decide, ?_⟩
  intro balance fromAmount
  rfl

/-! ## swapTokens: branch selection -/

/-- C5: symbol matching is case-insensitive.  Two requests whose symbols agree after
lower-casing, with the same amount on the same store, have the same outcome; in
particular the same branch and the same message amount. -/
theorem swapTokens_case_insensitive (st : Store) (s s' : String) (fromAmount : Nat)
    (hlow : toLowerCase s = toLowerCase s') :
    swapTokens st ⟨s, fromAmount⟩ = swapTokens st ⟨s', fromAmount⟩ ∧
      branchOf (swapTokens st ⟨s, fromAmount⟩) = branchOf (swapTokens st ⟨s', fromAmount⟩) ∧
      postedAmount (swapTokens st ⟨s, fromAmount⟩)
        = postedAmount (swapTokens st ⟨s', fromAmount⟩) := by
  have h : swapTokens st ⟨s, fromAmount⟩ = swapTokens st ⟨s', fromAmount⟩ := by
    simp only [swapTokens, hlow]
  exact ⟨h, by rw [h], by rw [h]⟩

theorem swapTokens_case_insensitive_witness :
    toLowerCase "LOCAL" = toLowerCase "local" ∧
      branchOf (swapTokens (sampleStore 1000000 (some 50000)) ⟨"LOCAL", 7⟩) =
        branchOf (swapTokens (sampleStore 1000000 (some 50000)) ⟨"local", 7⟩) :=
  ⟨by decide, (swapTokens_case_insensitive (sampleStore 1000000 (some 50000))
    "LOCAL" "local" 7 (by decide)).2.1⟩

/-- C6: a symbol that, lower-cased, equals neither the native symbol nor the sale
token symbol makes `swapTokens` throw `"Swapping from ?"` before anything else
happens: no message is built, `postMsg` is not called and the store is unchanged. -/
theorem swapTokens_unknown_symbol (st : Store) (swapInfo : SwapInfo) (symbol : String)
    (hsale : st.saleTokenSymbol = some symbol)
    (hnative : toLowerCase swapInfo.fromSymbol ≠ toLowerCase st.nativeTokenSymbol)
    (hsym : toLowerCase swapInfo.fromSymbol ≠ toLowerCase symbol) :
    swapTokens st swapInfo =
        { store := st, calls := [], thrown := some (JsError.thrown "Swapping from ?") } ∧
      branchOf (swapTokens st swapInfo) = Branch.rejected ∧
      postedAmount (swapTokens st swapInfo) = none := by
  have h : swapTokens st swapInfo =
      { store := st, calls := [], thrown := some (JsError.thrown "Swapping from ?") } := by
    simp [swapTokens, hsale, hnative, hsym]
  refine ⟨h, ?_, ?_⟩
  · rw [h]; rfl
  · rw [h]; rfl

theorem swapTokens_unknown_symbol_witness :
    swapTokens (sampleStore 1000000 (some 50000)) ⟨"LUNA", 7⟩ =
      { store := sampleStore 1000000 (some 50000), calls := [],
        thrown := some (JsError.thrown "Swapping from ?") } :=
  (swapTokens_unknown_symbol (sampleStore 1000000 (some 50000)) ⟨"LUNA", 7⟩ "LOCAL"
    rfl (by decide) (by decide)).1

/-! ## Asset lookup -/

/-- C7: lookup is by tag.  When `a` carries only the `token` tag and `b` only the
`native_token` tag, `saleAssetFromPair` returns `a` and `nativeTokenFromPair`
returns `b`, in either order of the two elements. -/
theorem lookup_by_tag (a b : Asset)
    (ha : a.token.isSome = true) (ha' : a.native_token.isSome = false)
    (hb : b.native_token.isSome = true) (hb' : b.token.isSome = false) :
    saleAssetFromPair [a, b] = .ok (some a) ∧ saleAssetFromPair [b, a] = .ok (some a) ∧
      nativeTokenFromPair [a, b] = .ok (some b) ∧ nativeTokenFromPair [b, a] = .ok (some b) ∧
      saleAssetFromPair [a, b] = saleAssetFromPair [b, a] ∧
      nativeTokenFromPair [a, b] = nativeTokenFromPair [b, a] := by
  simp [saleAssetFromPair, nativeTokenFromPair, ha, ha', hb, hb']

theorem lookup_by_tag_witness :
    saleAssetFromPair
        [{ token := none, native_token := some ⟨"uusd"⟩, amount := none },
         { token := some ⟨"terra1token"⟩, native_token := none, amount := none }]
      = .ok (some { token := some ⟨"terra1token"⟩, native_token := none, amount := none }) :=
  (lookup_by_tag { token := some ⟨"terra1token"⟩, native_token := none, amount := none }
    { token := none, native_token := some ⟨"uusd"⟩, amount := none } rfl rfl rfl rfl).2.1

/-! ## Confirmation polling -/

/-- C8: the monitor can confirm more than once.  The first two polls find nothing;
the third query is still in flight when the timer fires again and starts a fourth;
both then settle with the transaction.  The timer is cleared twice, both refreshes
are dispatched twice, and a fourth poll follows the third, where the claim has one
`clearInterval`, one dispatch of each refresh and no poll after the third. -/
theorem monitor_overlapping_polls_confirm_twice :
    (runMonitor "F3A9" (startMonitor (sampleStore 1000000 (some 50000)))
        [MonitorEvent.tick, MonitorEvent.settle none,
         MonitorEvent.tick, MonitorEvent.settle none,
         MonitorEvent.tick, MonitorEvent.tick,
         MonitorEvent.settle (some ⟨812⟩), MonitorEvent.settle (some ⟨812⟩)]).calls
      = [Call.txInfo "F3A9", Call.txInfo "F3A9", Call.txInfo "F3A9", Call.txInfo "F3A9",
         Call.clearInterval, Call.dispatch "updateBalance", Call.dispatch "fetchCurrentPair",
         Call.clearInterval, Call.dispatch "updateBalance", Call.dispatch "fetchCurrentPair"] ∧
      ((runMonitor "F3A9" (startMonitor (sampleStore 1000000 (some 50000)))
        [MonitorEvent.tick, MonitorEvent.settle none,
         MonitorEvent.tick, MonitorEvent.settle none,
         MonitorEvent.tick, MonitorEvent.tick,
         MonitorEvent.settle (some ⟨812⟩), MonitorEvent.settle (some ⟨812⟩)]).calls.count
          Call.clearInterval = 2) := by
  decide

/-- The in-order schedule of a concatenation. -/
theorem inOrder_append (xs ys : List (Option TxInfo)) :
    inOrder (xs ++ ys) = inOrder xs ++ inOrder ys := by
  induction xs with
  | nil => rfl
  | cons x xs ih => simp [inOrder, ih]

/-- Once the timer is cleared and no callback is suspended, in-order polls change
nothing. -/
theorem runMonitor_inOrder_cleared (txhash : String) (results : List (Option TxInfo)) :
    ∀ m : Monitor, m.timerSet = false → m.inFlight = 0 →
      runMonitor txhash m (inOrder results) = m := by
  induction results with
  | nil => intro m _ _; rfl
  | cons result rest ih =>
    intro m hm hf
    have hstep : monitorStep txhash (monitorStep txhash m MonitorEvent.tick)
        (MonitorEvent.settle result) = m := by
      simp [monitorStep, hm, hf]
    show runMonitor txhash (monitorStep txhash (monitorStep txhash m MonitorEvent.tick)
        (MonitorEvent.settle result)) (inOrder rest) = m
    rw [hstep]
    exact ih m hm hf

/-- In-order polls that find nothing keep the timer set and only add `txInfo` queries. -/
theorem runMonitor_inOrder_pending (txhash : String) (n : Nat) :
    ∀ m : Monitor, m.timerSet = true → m.inFlight = 0 →
      (runMonitor txhash m (inOrder (List.replicate n none))).timerSet = true ∧
      (runMonitor txhash m (inOrder (List.replicate n none))).inFlight = 0 ∧
      (runMonitor txhash m (inOrder (List.replicate n none))).calls
        = m.calls ++ List.replicate n (Call.txInfo txhash) ∧
      (0 < n → statusOf (runMonitor txhash m (inOrder (List.replicate n none)))
        = SwapStatus.submitted) := by
  induction n with
  | zero => intro m hm hf; simp [runMonitor, inOrder, hm, hf]
  | succ n ih =>
    intro m hm hf
    have hrun : runMonitor txhash m (inOrder (List.replicate (n + 1) none))
        = runMonitor txhash
            (monitorStep txhash (monitorStep txhash m MonitorEvent.tick)
              (MonitorEvent.settle none))
            (inOrder (List.replicate n none)) := by
      simp [runMonitor, List.replicate_succ, inOrder]
    have htimer : (monitorStep txhash (monitorStep txhash m MonitorEvent.tick)
        (MonitorEvent.settle none)).timerSet = true := by
      simp [monitorStep, hm, pollStart, pollResume]
    have hflight : (monitorStep txhash (monitorStep txhash m MonitorEvent.tick)
        (MonitorEvent.settle none)).inFlight = 0 := by
      simp [monitorStep, hm, hf, pollStart, pollResume]
    have hcalls : (monitorStep txhash (monitorStep txhash m MonitorEvent.tick)
        (MonitorEvent.settle none)).calls = m.calls ++ [Call.txInfo txhash] := by
      simp [monitorStep, hm, pollStart, pollResume]
    have hstatus : statusOf (monitorStep txhash (monitorStep txhash m MonitorEvent.tick)
        (MonitorEvent.settle none)) = SwapStatus.submitted := by
      simp [monitorStep, hm, pollStart, pollResume, statusOf]
    obtain ⟨h1, h2, h3, h4⟩ := ih _ htimer hflight
    rw [hrun]
    refine ⟨h1, h2, ?_, ?_⟩
    · rw [h3, hcalls]
      simp [List.replicate_succ]
    · intro _
      cases n with
      | zero => simpa [runMonitor, inOrder] using hstatus
      | succ n => exact h4 (Nat.succ_pos n)

/-- When every query settles before the next tick, the monitor confirms once.  If the
first `n` polls find nothing and poll `n + 1` finds the transaction, then before
that poll the timer is still set and only `txInfo` queries have been made; after it
the timer is cleared and the calls are exactly `n + 1` queries followed by one
`clearInterval`, one `updateBalance` and one `fetchCurrentPair` dispatch, whatever
results later polls would have had; the status is submitted after each empty poll
and confirmed after the populated one. -/
theorem monitor_in_order_confirms_once (txhash : String) (st : Store) (info : TxInfo)
    (n : Nat) (later : List (Option TxInfo)) :
    (runMonitor txhash (startMonitor st) (inOrder (List.replicate n none))).timerSet = true ∧
      (runMonitor txhash (startMonitor st) (inOrder (List.replicate n none))).calls
        = List.replicate n (Call.txInfo txhash) ∧
      (0 < n → statusOf (runMonitor txhash (startMonitor st) (inOrder (List.replicate n none)))
        = SwapStatus.submitted) ∧
      (runMonitor txhash (startMonitor st)
        (inOrder (List.replicate n none ++ some info :: later))).timerSet = false ∧
      (runMonitor txhash (startMonitor st)
        (inOrder (List.replicate n none ++ some info :: later))).calls
        = List.replicate (n + 1) (Call.txInfo txhash) ++
          [Call.clearInterval, Call.dispatch "updateBalance", Call.dispatch "fetchCurrentPair"] ∧
      statusOf (runMonitor txhash (startMonitor st)
        (inOrder (List.replicate n none ++ some info :: later))) = SwapStatus.confirmed := by
  obtain ⟨h1, hf, h2, h3⟩ := runMonitor_inOrder_pending txhash n (startMonitor st) rfl rfl
  have h2' : (runMonitor txhash (startMonitor st) (inOrder (List.replicate n none))).calls
      = List.replicate n (Call.txInfo txhash) := by
    rw [h2]
    simp [startMonitor]
  have hsplit : runMonitor txhash (startMonitor st)
      (inOrder (List.replicate n none ++ some info :: later))
      = runMonitor txhash
          (monitorStep txhash
            (monitorStep txhash
              (runMonitor txhash (startMonitor st) (inOrder (List.replicate n none)))
              MonitorEvent.tick)
            (MonitorEvent.settle (some info)))
          (inOrder later) := by
    rw [inOrder_append]
    simp [runMonitor, List.foldl_append, inOrder]
  generalize runMonitor txhash (startMonitor st) (inOrder (List.replicate n none)) = before
    at h1 hf h2' h3 hsplit
  have hconf : (monitorStep txhash (monitorStep txhash before MonitorEvent.tick)
      (MonitorEvent.settle (some info))).timerSet = false := by
    simp [monitorStep, h1, pollStart, pollResume]
  have hflight : (monitorStep txhash (monitorStep txhash before MonitorEvent.tick)
      (MonitorEvent.settle (some info))).inFlight = 0 := by
    simp [monitorStep, h1, hf, pollStart, pollResume]
  have hcalls : (monitorStep txhash (monitorStep txhash before MonitorEvent.tick)
      (MonitorEvent.settle (some info))).calls = List.replicate (n + 1) (Call.txInfo txhash) ++
        [Call.clearInterval, Call.dispatch "updateBalance", Call.dispatch "fetchCurrentPair"] := by
    simp [monitorStep, h1, pollStart, pollResume, h2', List.replicate_succ']
  have hstatus : statusOf (monitorStep txhash (monitorStep txhash before MonitorEvent.tick)
      (MonitorEvent.settle (some info))) = SwapStatus.confirmed := by
    simp [monitorStep, h1, pollStart, pollResume, statusOf]
  rw [hsplit, runMonitor_inOrder_cleared txhash later _ hconf hflight]
  exact ⟨h1, h2', h3, hconf, hcalls, hstatus⟩

/-! ## fetchPool -/

/-- C9: the remaining-tokens derivation is not the floor it is meant to be.  A
reserve of `12345` base units of a token with 6 decimals is committed as the amount
`1234` (a negative `slice` end counts from the end of the string) where the whole
tokens are none; and a reserve of 29 out of a total supply of 100 is committed as
28 percent, because `29 / 100 * 100` is `28.999999999999996` in doubles. -/
theorem fetchPool_not_floored :
    fetchPool (samplePoolAssets "12345") ⟨6, "1000000000000"⟩
        = .ok { amount := "1234", percentage := some 0 } ∧
      12345 / 10 ^ 6 = 0 ∧
      fetchPool (samplePoolAssets "29") ⟨0, "100"⟩
        = .ok { amount := "29", percentage := some 28 } ∧
      29 * 100 / 100 = 29 :=
  ⟨rfl, by decide, rfl, by decide⟩

/-- For a reserve with at least `decimals` digits the committed amount is the
reserve with its last `decimals` digits dropped. -/
theorem tokensRemaining_amount_of_le (coinsRemaining : String) (info : SaleTokenInfo)
    (h : info.decimals ≤ coinsRemaining.data.length) :
    (tokensRemaining coinsRemaining info).amount
      = ⟨coinsRemaining.data.take (coinsRemaining.data.length - info.decimals)⟩ := by
  have hnn : ¬ ((coinsRemaining.data.length : Int) - (info.decimals : Int) < 0) := by omega
  have hmin : min ((coinsRemaining.data.length : Int) - (info.decimals : Int))
      (coinsRemaining.data.length : Int)
      = ((coinsRemaining.data.length - info.decimals : Nat) : Int) := by omega
  simp only [tokensRemaining, sliceFromStart, hnn, if_false, hmin, Int.toNat_ofNat]

/-! ## Simulations -/

/-- Scaling keeps a non-negative value non-negative. -/
theorem withPrec_nonneg (value : Int) (prec : Nat) (h : 0 ≤ value) : 0 ≤ withPrec value prec := by
  unfold withPrec
  have hv : (0 : ℚ) ≤ (value : ℚ) := by exact_mod_cast h
  positivity

/-- C10: for every non-negative input amount, when the chain answers the forward
query, made with the pair's native asset info, and the reverse query, made with the
pair's sale asset info, `getSimulation` returns the reply's `return_amount` and
`spread_amount` and `getReverseSimulation` the reply's `offer_amount` and
`spread_amount`, each scaled by `10 ^ (-6)`, and both spreads are non-negative. -/
theorem simulation_quotes
    (forward : Option String → Int → Option Asset → Except JsError SimulationResponse)
    (reverse : Option String → Int → Option Asset → Except JsError ReverseSimulationResponse)
    (pair : Pair) (amount : Int) (nativeInfo saleInfo : Option Asset)
    (sim : SimulationResponse) (rsim : ReverseSimulationResponse)
    (_hamount : 0 ≤ amount)
    (hnative : nativeTokenFromPair pair.asset_infos = .ok nativeInfo)
    (hsale : saleAssetFromPair pair.asset_infos = .ok saleInfo)
    (hforward : forward pair.contract_addr amount nativeInfo = .ok sim)
    (hreverse : reverse pair.contract_addr amount saleInfo = .ok rsim) :
    (∃ quote : Quote, getSimulation forward pair amount = .ok quote ∧
        quote.amount = (sim.return_amount : ℚ) / 10 ^ 6 ∧
        quote.spread = (sim.spread_amount : ℚ) / 10 ^ 6 ∧ 0 ≤ quote.spread) ∧
      (∃ quote : Quote, getReverseSimulation reverse pair amount = .ok quote ∧
        quote.amount = (rsim.offer_amount : ℚ) / 10 ^ 6 ∧
        quote.spread = (rsim.spread_amount : ℚ) / 10 ^ 6 ∧ 0 ≤ quote.spread) := by
  constructor
  · refine ⟨⟨withPrec (sim.return_amount : Int) 6, withPrec (sim.spread_amount : Int) 6⟩,
      by simp only [getSimulation, hnative, hforward], ?_, ?_, ?_⟩
    · simp [withPrec]
    · simp [withPrec]
    · exact withPrec_nonneg _ 6 (Int.ofNat_nonneg _)
  · refine ⟨⟨withPrec (rsim.offer_amount : Int) 6, withPrec (rsim.spread_amount : Int) 6⟩,
      by simp only [getReverseSimulation, hsale, hreverse], ?_, ?_, ?_⟩
    · simp [withPrec]
    · simp [withPrec]
    · exact withPrec_nonneg _ 6 (Int.ofNat_nonneg _)

theorem simulation_quotes_witness :
    ∃ quote : Quote,
      getSimulation (constantSimulation ⟨2500000, 1200⟩) fetchedPair 1000000 = .ok quote ∧
      quote.amount = ((2500000 : Nat) : ℚ) / 10 ^ 6 ∧
      quote.spread = ((1200 : Nat) : ℚ) / 10 ^ 6 ∧ 0 ≤ quote.spread :=
  (simulation_quotes (constantSimulation ⟨2500000, 1200⟩)
    (constantReverseSimulation ⟨400000, 900⟩) fetchedPair 1000000
    (some { token := none, native_token := some ⟨"uusd"⟩, amount := none })
    (some { token := some ⟨"terra1vchw83qt25j89zqwdpmdzj722sqxthnckqzxxp"⟩,
            native_token := none, amount := none })
    ⟨2500000, 1200⟩ ⟨400000, 900⟩ (by decide) rfl rfl rfl rfl).1
end Localterra
